import Mathlib

/-
  Shallow embedding of the go-git-analyzer-ollama core: the in-memory job
  tracker (internal/handler/jobs.go), the background analysis loop
  (internal/handler/analysis_handler.go, runAnalysisJob) and the RAG service
  with its code chunker (service package: Query, QueryStream, IndexChunks,
  chunkCode, detectLanguage).

  Modelling conventions: Go maps become association lists, Go channels become
  bounded queues (capacity + buffer), Go `select/default` sends become a
  total `trySend` that drops on a full buffer, wall-clock times are abstract
  Nat ticks passed explicitly, and float64 scores are modelled as Int (the
  claims only involve the score 0).  Fallible collaborator calls (embedding,
  chat, vector store) are oracles returning Except.
-/

namespace GitAnalyzer

/-! ## Association-list helpers (Go map model) -/

def lookupA {α : Type} : List (String × α) → String → Option α
  | [], _ => none
  | (k, v) :: rest, key => if k = key then some v else lookupA rest key

def setA {α : Type} : List (String × α) → String → α → List (String × α)
  | [], key, v => [(key, v)]
  | (k, w) :: rest, key, v =>
      if k = key then (key, v) :: rest else (k, w) :: setA rest key v

/-! ## Job tracker (internal/handler/jobs.go) -/

/-- JobStatus from jobs.go; timestamps are abstract ticks. -/
structure JobStatus where
  id : String
  repoID : String
  status : String
  progress : Int
  total : Int
  current : String
  results : List String
  error : String
  startedAt : Nat
  completedAt : Option Nat
deriving DecidableEq

/-- A subscriber channel: bounded buffer (Go `make(chan JobStatus, 10)`). -/
structure Chan where
  cap : Nat
  buf : List JobStatus
deriving DecidableEq

/-- Non-blocking send (`select { case ch <- snapshot: default: }`):
    append when there is room, drop otherwise. -/
def trySend (c : Chan) (s : JobStatus) : Chan :=
  if c.buf.length < c.cap then { c with buf := c.buf ++ [s] } else c

structure JobTracker where
  jobs : List (String × JobStatus)
  subs : List (String × List Chan)
deriving DecidableEq

/-- CreateJob: insert a fresh running job with progress 0. -/
def CreateJob (t : JobTracker) (id repoID : String) (total : Int) (now : Nat) :
    JobTracker :=
  let fresh : JobStatus :=
    { id := id, repoID := repoID, status := "running", progress := 0,
      total := total, current := "", results := [], error := "",
      startedAt := now, completedAt := none }
  { t with jobs := setA t.jobs id fresh }

/-- The mutation UpdateJob performs on the stored job: set
    progress/current/status, append the strategy to the completed list when
    it is non-empty and the status is not "error", stamp the completion time
    on a terminal status.  Note: no check of the job's previous status. -/
def applyJobUpdate (job : JobStatus) (strategy : String) (progress : Int)
    (status : String) (now : Nat) : JobStatus :=
  let j1 := { job with progress := progress, current := strategy, status := status }
  let j2 := if strategy ≠ "" ∧ status ≠ "error"
            then { j1 with results := j1.results ++ [strategy] } else j1
  if status = "complete" ∨ status = "error"
  then { j2 with completedAt := some now } else j2

/-- UpdateJob: no-op on an unknown id; otherwise mutate the stored job and
    push a value snapshot to every subscriber of that id with `trySend`. -/
def UpdateJob (t : JobTracker) (id strategy : String) (progress : Int)
    (status : String) (now : Nat) : JobTracker :=
  match lookupA t.jobs id with
  | none => t
  | some job =>
    let snapshot := applyJobUpdate job strategy progress status now
    let newSubs :=
      match lookupA t.subs id with
      | none => t.subs
      | some chans => setA t.subs id (chans.map fun ch => trySend ch snapshot)
    { jobs := setA t.jobs id snapshot, subs := newSubs }

/-- GetJob: a snapshot of the stored job, or none. -/
def GetJob (t : JobTracker) (id : String) : Option JobStatus :=
  lookupA t.jobs id

/-- Subscribe: allocate a capacity-10 channel and append it. -/
def Subscribe (t : JobTracker) (id : String) : JobTracker × Chan :=
  let ch : Chan := { cap := 10, buf := [] }
  ({ t with subs := setA t.subs id (((lookupA t.subs id).getD []) ++ [ch]) }, ch)

/-! ## Code chunker (service package, chunkCode) -/

/-- Go `strings.Split(content, "\n")` on the character list: splitting an
    empty list yields one empty line, exactly as in Go. -/
def splitNl : List Char → List (List Char)
  | [] => [[]]
  | c :: cs =>
    if c = '\n' then [] :: splitNl cs
    else
      match splitNl cs with
      | [] => [[c]]
      | l :: ls => (c :: l) :: ls

/-- Field counter for Go `len(strings.Fields(line))`: number of maximal
    runs of non-whitespace characters; the Bool records being inside a run. -/
def countFields : List Char → Bool → Nat
  | [], _ => 0
  | c :: cs, inWord =>
    if c.isWhitespace then countFields cs false
    else (if inWord then 0 else 1) + countFields cs true

def wordCount (l : List Char) : Nat := countFields l false

/-- Go recomputes `currentLen` by summing the field counts of the kept lines. -/
def lineLen (ls : List (List Char)) : Nat := (ls.map wordCount).sum

/-- The loop body of chunkCode over lines: emit the buffered chunk when the
    next line would push the running token count over `maxTokens` (and the
    buffer is non-empty, Go `len(current) > 0`), keep the last
    `min 3 current.length` lines as overlap, then append the line. -/
def chunkLoop (maxTokens : Nat) :
    List (List Char) → List (List Char) → Nat → List (List (List Char))
  | [], current, _ => if current ≠ [] then [current] else []
  | line :: rest, current, currentLen =>
    let wc := wordCount line
    if currentLen + wc > maxTokens ∧ current ≠ [] then
      let ov := min 3 current.length
      let kept := current.drop (current.length - ov)
      current :: chunkLoop maxTokens rest (kept ++ [line]) (lineLen kept + wc)
    else
      chunkLoop maxTokens rest (current ++ [line]) (currentLen + wc)

def chunkLines (maxTokens : Nat) (lines : List (List Char)) :
    List (List (List Char)) :=
  chunkLoop maxTokens lines [] 0

/-- chunkCode: split into lines, run the chunking loop, join each chunk's
    lines back with newlines (Go `strings.Join(current, "\n")`). -/
def chunkCode (content : String) (maxTokens : Nat) : List String :=
  (chunkLines maxTokens (splitNl content.data)).map
    fun c => String.mk (List.intercalate ['\n'] c)

/-- Drop each chunk's leading overlap lines (the last `min 3 prev.length`
    lines of its predecessor) and concatenate. -/
def dropOverlap : List (List Char) → List (List (List Char)) → List (List Char)
  | _, [] => []
  | prev, c :: cs => c.drop (min 3 prev.length) ++ dropOverlap c cs

/-- Undo the overlap: first chunk whole, later chunks without their leading
    overlap lines. -/
def reconstruct : List (List (List Char)) → List (List Char)
  | [] => []
  | c :: cs => c ++ dropOverlap c cs

/-- Every chunk after the first starts with exactly the last
    `min 3 prev.length` lines of its predecessor. -/
def overlapOK : List (List (List Char)) → Bool
  | a :: b :: rest =>
      (b.take (min 3 a.length) == a.drop (a.length - min 3 a.length)) &&
      overlapOK (b :: rest)
  | _ => true

/-! ## RAG service (service package: RAGService) -/

/-- domain.SimilarChunk, restricted to the fields the service reads;
    the float64 similarity is modelled as an Int. -/
structure SimilarChunk where
  filePath : String
  chunkIndex : Nat
  content : String
  similarity : Int
deriving DecidableEq

/-- domain.Embedding as built by IndexChunks; vectors are abstract Int lists. -/
structure Embedding where
  snapshotID : String
  repoID : String
  filePath : String
  chunkIndex : Nat
  content : String
  language : String
  vector : List Int
deriving DecidableEq

/-- The collaborators RAGService calls (port.AIProvider and the vector
    store), as oracles. -/
structure AIEnv where
  embed : String → Except String (List Int)
  embedBatch : List String → Except String (List (List Int))
  chat : String → String → List String → Except String String
  chatStream : String → String → List String → Except String (List String)
  searchSimilar : String → List Int → Nat → Except String (List SimilarChunk)
  storeBatch : List Embedding → Except String Unit

/-- detectLanguage: the file-extension switch of the service package. -/
def detectLanguage (filePath : String) : String :=
  let ext := filePath.toLower
  if ext.endsWith ".go" then "go"
  else if ext.endsWith ".ts" || ext.endsWith ".tsx" then "typescript"
  else if ext.endsWith ".js" || ext.endsWith ".jsx" then "javascript"
  else if ext.endsWith ".py" then "python"
  else if ext.endsWith ".rs" then "rust"
  else if ext.endsWith ".java" then "java"
  else if ext.endsWith ".rb" then "ruby"
  else if ext.endsWith ".sql" then "sql"
  else if ext.endsWith ".yaml" || ext.endsWith ".yml" then "yaml"
  else if ext.endsWith ".json" then "json"
  else if ext.endsWith ".md" then "markdown"
  else "unknown"

def noRelevantAnswer : String := "No relevant code found for this query."

def querySystemPrompt : String :=
  "You are CodeLens AI, an expert code analyst. Answer questions about the codebase using the provided code context. Be precise, reference specific files and functions, and provide code examples when relevant. Always cite the source file when referencing code."

def streamSystemPrompt : String :=
  "You are CodeLens AI, an expert code analyst. Answer questions about the codebase using the provided code context. Be precise, reference specific files and functions."

/-- RAGService.Query: embed the question, fetch the 10 most similar chunks,
    return the fixed answer (no sources, no error) when none are found,
    otherwise build one context part per chunk and call Chat. -/
def Query (env : AIEnv) (repoID question : String) :
    Except String (String × List SimilarChunk) :=
  match env.embed question with
  | .error e => .error ("embed query: " ++ e)
  | .ok queryVector =>
    match env.searchSimilar repoID queryVector 10 with
    | .error e => .error ("search similar: " ++ e)
    | .ok chunks =>
      if chunks.length = 0 then .ok (noRelevantAnswer, [])
      else
        let contextParts := chunks.map fun c =>
          "// File: " ++ c.filePath ++ " (similarity: " ++ toString c.similarity
            ++ ")\n" ++ c.content
        match env.chat querySystemPrompt question contextParts with
        | .error e => .error ("chat: " ++ e)
        | .ok response => .ok (response, chunks)

/-- RAGService.QueryStream: same embed and search steps, but no zero-chunk
    check in the source — the context (possibly empty) goes straight to
    ChatStream.  The token stream is modelled as the list of fragments. -/
def QueryStream (env : AIEnv) (repoID question : String) :
    Except String (List String × List SimilarChunk) :=
  match env.embed question with
  | .error e => .error ("embed query: " ++ e)
  | .ok queryVector =>
    match env.searchSimilar repoID queryVector 10 with
    | .error e => .error ("search similar: " ++ e)
    | .ok chunks =>
      let contextParts := chunks.map fun c =>
        "// File: " ++ c.filePath ++ "\n" ++ c.content
      match env.chatStream streamSystemPrompt question contextParts with
      | .error e => .error ("chat stream: " ++ e)
      | .ok stream => .ok (stream, chunks)

/-- The Embedding records IndexChunks builds for one file
    (`vectors[i]` rendered as a positional lookup). -/
def fileEmbeddings (repoID snapshotID filePath : String)
    (chunks : List String) (vectors : List (List Int)) : List Embedding :=
  chunks.enum.map fun p =>
    { snapshotID := snapshotID, repoID := repoID, filePath := filePath,
      chunkIndex := p.1, content := p.2, language := detectLanguage filePath,
      vector := vectors.getD p.1 [] }

/-- Per-file step of IndexChunks: chunk, skip when empty, embed the batch
    (log-and-continue on failure), store the batch (log-and-continue on
    failure).  The returned list is what reached the vector store. -/
def indexFile (env : AIEnv) (repoID snapshotID filePath content : String) :
    List Embedding :=
  let chunks := chunkCode content 512
  if chunks = [] then []
  else
    match env.embedBatch chunks with
    | .error _ => []
    | .ok vectors =>
      let embeddings := fileEmbeddings repoID snapshotID filePath chunks vectors
      match env.storeBatch embeddings with
      | .error _ => []
      | .ok _ => embeddings

/-- RAGService.IndexChunks over the files (the Go map rendered as an
    association list): best-effort per file, and the function always
    returns nil. -/
def IndexChunks (env : AIEnv) (repoID snapshotID : String)
    (files : List (String × String)) : List Embedding × Except String Unit :=
  (files.flatMap fun p => indexFile env repoID snapshotID p.1 p.2, Except.ok ())

/-! ## Analysis orchestrator (runAnalysisJob) -/

/-- port.AnalysisResult, restricted to the fields the loop persists;
    the float64 score is modelled as an Int. -/
structure AnalysisResult where
  summary : String
  score : Int
deriving DecidableEq

/-- Observable actions of the background loop: UpdateJob calls and
    SaveAnalysisResultFull calls (strategy, summary, score). -/
inductive Event where
  | update (strategy : String) (progress : Int) (status : String)
  | save (strategy summary : String) (score : Int)
deriving DecidableEq

/-- The retry loop `for attempt := 0; attempt <= maxRetries`: run the
    attempt, stop on success, otherwise retry; the result of the last
    attempt made is kept. -/
def tryAttempts (f : Nat → Except String AnalysisResult) :
    Nat → Nat → Except String AnalysisResult
  | attempt, 0 => f attempt
  | attempt, retries + 1 =>
    match f attempt with
    | .ok r => .ok r
    | .error _ => tryAttempts f (attempt + 1) retries

/-- The synthetic failure report saved when a strategy exhausts its
    attempts (maxRetries+1 = 3). -/
def failSummary (strategy err : String) : String :=
  "## Analysis Failed: the " ++ strategy ++
  " strategy could not be completed after 3 attempts. Error: " ++ err

/-- One iteration of the strategy loop at index `i`: mark running at
    progress `i`, run up to 3 attempts, save either the real result or the
    synthetic score-0 failure report, then advance progress to `i+1` with
    status still "running". -/
def strategyEvents (i : Nat) (strategy : String)
    (f : Nat → Except String AnalysisResult) : List Event :=
  Event.update strategy (i : Int) "running" ::
  (match tryAttempts f 0 2 with
   | .error e =>
       [Event.save strategy (failSummary strategy e) 0,
        Event.update strategy ((i : Int) + 1) "running"]
   | .ok r =>
       [Event.save strategy r.summary r.score,
        Event.update strategy ((i : Int) + 1) "running"])

/-- runAnalysisJob: the sequential strategy loop followed by the final
    `UpdateJob(jobID, "", len(strategies), "complete")`.  `f i k` is the
    outcome of attempt `k` of strategy `i` (the Analyze oracle). -/
def runAnalysisJobEvents (strategies : List String)
    (f : Nat → Nat → Except String AnalysisResult) : List Event :=
  (strategies.enum.flatMap fun p => strategyEvents p.1 p.2 (f p.1)) ++
  [Event.update "" (strategies.length : Int) "complete"]

/-- The UpdateJob calls of an event trace, in order. -/
def updateCalls (es : List Event) : List (String × Int × String) :=
  es.filterMap fun e =>
    match e with
    | .update s p st => some (s, p, st)
    | .save _ _ _ => none

/-- The SaveAnalysisResultFull calls of an event trace: (strategy, score). -/
def savedCalls (es : List Event) : List (String × Int) :=
  es.filterMap fun e =>
    match e with
    | .save s _ sc => some (s, sc)
    | .update _ _ _ => none

def isTerminal (st : String) : Bool := st == "complete" || st == "error"

/-- Replay a list of UpdateJob calls against a tracker. -/
def applyUpdates (t : JobTracker) (jobID : String) (now : Nat) :
    List (String × Int × String) → JobTracker
  | [] => t
  | (s, p, st) :: rest => applyUpdates (UpdateJob t jobID s p st now) jobID now rest

/-- The shape of the loop's UpdateJob calls from index `i` on: a
    progress-`k` and a progress-`k+1` call per strategy, all "running". -/
def pairCalls : Nat → List String → List (String × Int × String)
  | _, [] => []
  | i, s :: rest =>
      (s, (i : Int), "running") :: (s, (i : Int) + 1, "running") :: pairCalls (i + 1) rest

/-! ## Helper observations used in the theorem statements -/

/-- (status, progress, total) of a stored job. -/
def jobSummary (t : JobTracker) (id : String) : Option (String × Int × Int) :=
  (GetJob t id).map fun j => (j.status, j.progress, j.total)

/-- The progress argument of each UpdateJob call. -/
def progressList (us : List (String × Int × String)) : List Int :=
  us.map fun u => u.2.1

/-- The closed form of the loop's progress arguments from value `j` on:
    `j, j+1, j+1, j+2, ...` (one pre-call and one advance per strategy). -/
def progSeq : Int → Nat → List Int
  | _, 0 => []
  | j, n + 1 => j :: (j + 1) :: progSeq (j + 1) n

/-- Every progress argument is at most `n`. -/
def allLe (us : List (String × Int × String)) (n : Int) : Bool :=
  us.all fun u => decide (u.2.1 ≤ n)

/-- Number of UpdateJob calls with a terminal status. -/
def terminalCount (us : List (String × Int × String)) : Nat :=
  (us.filter fun u => isTerminal u.2.2).length

/-- Every UpdateJob call carries status "running". -/
def allRunning (us : List (String × Int × String)) : Bool :=
  us.all fun u => u.2.2 == "running"

/-- Number of UpdateJob events with status "running" for the given strategy. -/
def runningCount (name : String) (es : List Event) : Nat :=
  (es.filter fun e =>
    match e with
    | .update s _ st => s == name && st == "running"
    | .save _ _ _ => false).length

/-- The subscriber fan-out of UpdateJob: every channel through `trySend`. -/
def notifyAll (chans : List Chan) (snap : JobStatus) : List Chan :=
  chans.map fun ch => trySend ch snap

/-- The drop-or-deliver behaviour of a non-blocking send on one channel. -/
def sendBehavior (snap : JobStatus) (ch : Chan) : Bool :=
  if ch.buf.length < ch.cap
  then (trySend ch snap).buf == ch.buf ++ [snap]
  else trySend ch snap == ch

/-- Steps 4-5 of QueryStream: hand the context assembled from `chunks` to
    the streaming chat call. -/
def chatStreamStep (env : AIEnv) (question : String)
    (chunks : List SimilarChunk) : Except String (List String × List SimilarChunk) :=
  match env.chatStream streamSystemPrompt question
      (chunks.map fun c => "// File: " ++ c.filePath ++ "\n" ++ c.content) with
  | .error e => .error ("chat stream: " ++ e)
  | .ok stream => .ok (stream, chunks)

/-- `stored` contains every element of `embs`. -/
def containsAll (stored embs : List Embedding) : Bool :=
  embs.all fun e => stored.contains e

/-! ## Concrete instances used by witnesses and counterexamples -/

def emptyTracker : JobTracker := { jobs := [], subs := [] }

/-- A job already in the terminal state "complete". -/
def jobDone : JobStatus :=
  { id := "j", repoID := "r", status := "complete", progress := 1, total := 1,
    current := "", results := ["architecture"], error := "", startedAt := 0,
    completedAt := some 5 }

def trackerDone : JobTracker := { jobs := [("j", jobDone)], subs := [] }

/-- A running job. -/
def jobRun : JobStatus :=
  { id := "j", repoID := "r", status := "running", progress := 3, total := 5,
    current := "security", results := [], error := "", startedAt := 0,
    completedAt := none }

/-- One subscriber whose capacity-10 buffer is already full (it never
    drains) and one subscriber with room. -/
def chansSlow : List Chan :=
  [{ cap := 10, buf := List.replicate 10 jobRun }, { cap := 10, buf := [] }]

def trackerSlow : JobTracker :=
  { jobs := [("j", jobRun)], subs := [("j", chansSlow)] }

/-- A strategy outcome oracle that always succeeds. -/
def fOk : Nat → Nat → Except String AnalysisResult :=
  fun _ _ => Except.ok { summary := "all good", score := 8 }

/-- Attempts of one strategy: fail twice, succeed on the third attempt. -/
def fRetry : Nat → Except String AnalysisResult :=
  fun k => if k < 2 then Except.error "timeout" else
    Except.ok { summary := "all good", score := 8 }

/-- A strategy outcome oracle where every attempt of every strategy fails. -/
def fFail : Nat → Nat → Except String AnalysisResult :=
  fun _ _ => Except.error "provider down"

/-- An environment whose similarity search finds nothing and whose chat
    stream fails; embeddings succeed. -/
def envZero : AIEnv :=
  { embed := fun _ => Except.ok [1],
    embedBatch := fun _ => Except.ok [],
    chat := fun _ _ _ => Except.ok "answer",
    chatStream := fun _ _ _ => Except.error "stream down",
    searchSimilar := fun _ _ _ => Except.ok [],
    storeBatch := fun _ => Except.ok () }

/-- An environment whose batched embedding fails exactly on file B's chunks
    and whose store always succeeds. -/
def envIdx : AIEnv :=
  { embed := fun _ => Except.ok [1],
    embedBatch := fun chunks =>
      if chunks = ["beta"] then Except.error "embed down"
      else Except.ok (chunks.map fun _ => [1]),
    chat := fun _ _ _ => Except.ok "answer",
    chatStream := fun _ _ _ => Except.ok ["tok"],
    searchSimilar := fun _ _ _ => Except.ok [],
    storeBatch := fun _ => Except.ok () }

/-- Three files; file B's embedding call will fail. -/
def filesIdx : List (String × String) :=
  [("a.go", "alpha"), ("b.go", "beta"), ("c.go", "gamma")]

/-- A one-strategy oracle whose single strategy retries per `fRetry`. -/
def fRetryAll : Nat → Nat → Except String AnalysisResult := fun _ => fRetry

/-- The five registered strategies of the scenario in the spec. -/
def strat5 : List String :=
  ["architecture", "code_quality", "security", "performance", "documentation"]

/-! ## Chunker lemmas -/

lemma splitNl_ne_nil : ∀ cs : List Char, splitNl cs ≠ [] := by
  intro cs
  induction cs with
  | nil => simp [splitNl]
  | cons c rest ih =>
    simp only [splitNl]
    split
    · simp
    · split
      · simp
      · simp

lemma chunkLines_nil (maxT : Nat) : chunkLines maxT [] = [] := by
  simp [chunkLines, chunkLoop]

lemma chunkLines_cons (maxT : Nat) (l : List Char) (rs : List (List Char)) :
    chunkLines maxT (l :: rs) = chunkLoop maxT rs [l] (wordCount l) := by
  simp [chunkLines, chunkLoop]

/-- Main loop invariant: starting from a non-empty buffer, the loop emits a
    non-empty chunk list whose first chunk extends the buffer, whose
    overlap-dropped concatenation is exactly the remaining input, and in
    which every chunk after the first starts with its predecessor's last
    `min 3` lines. -/
lemma chunkLoop_spec (maxT : Nat) :
    ∀ (rest current : List (List Char)) (currentLen : Nat), current ≠ [] →
    ∃ c cs ext, chunkLoop maxT rest current currentLen = c :: cs ∧
      c = current ++ ext ∧
      ext ++ dropOverlap c cs = rest ∧
      overlapOK (c :: cs) = true := by
  intro rest
  induction rest with
  | nil =>
    intro current currentLen hne
    refine ⟨current, [], [], ?_, by simp, by simp [dropOverlap], by simp [overlapOK]⟩
    simp [chunkLoop, hne]
  | cons line rs ih =>
    intro current currentLen hne
    by_cases hcond : currentLen + wordCount line > maxT ∧ current ≠ []
    · -- emit the buffered chunk, keep the last `min 3` lines as overlap
      set kept := current.drop (current.length - min 3 current.length) with hkept
      obtain ⟨c', cs', ext', heq, hpre, hrec, hov⟩ :=
        ih (kept ++ [line]) (lineLen kept + wordCount line) (by simp)
      have hkl : kept.length = min 3 current.length := by
        rw [hkept, List.length_drop]
        omega
      have hstep : chunkLoop maxT (line :: rs) current currentLen =
          current :: chunkLoop maxT rs (kept ++ [line])
            (lineLen kept + wordCount line) := by
        simp only [chunkLoop]
        rw [if_pos hcond]
      have hdropc : c'.drop (min 3 current.length) = line :: ext' := by
        rw [hpre, List.append_assoc, ← hkl, List.drop_left]
        rfl
      have htakec : c'.take (min 3 current.length) = kept := by
        rw [hpre, List.append_assoc, ← hkl]
        exact List.take_left _ _
      refine ⟨current, c' :: cs', [], ?_, by simp, ?_, ?_⟩
      · rw [hstep, heq]
      · show dropOverlap current (c' :: cs') = line :: rs
        unfold dropOverlap
        rw [hdropc]
        simp [hrec]
      · show overlapOK (current :: c' :: cs') = true
        unfold overlapOK
        rw [htakec]
        simp [hov]
    · -- append the line to the buffer
      obtain ⟨c', cs', ext', heq, hpre, hrec, hov⟩ :=
        ih (current ++ [line]) (currentLen + wordCount line) (by simp)
      have hstep : chunkLoop maxT (line :: rs) current currentLen =
          chunkLoop maxT rs (current ++ [line]) (currentLen + wordCount line) := by
        simp only [chunkLoop]
        rw [if_neg hcond]
      refine ⟨c', cs', line :: ext', ?_, ?_, ?_, hov⟩
      · rw [hstep, heq]
      · rw [hpre, List.append_assoc]
        rfl
      · simp only [List.cons_append]
        rw [hrec]

lemma reconstruct_chunkLines (maxT : Nat) (lines : List (List Char)) :
    reconstruct (chunkLines maxT lines) = lines := by
  cases lines with
  | nil => rw [chunkLines_nil]; rfl
  | cons l rs =>
    obtain ⟨c, cs, ext, heq, hpre, hrec, _⟩ :=
      chunkLoop_spec maxT rs [l] (wordCount l) (by simp)
    rw [chunkLines_cons, heq]
    show c ++ dropOverlap c cs = l :: rs
    nth_rewrite 1 [hpre]
    rw [List.append_assoc, hrec]
    rfl

lemma overlapOK_chunkLines (maxT : Nat) (lines : List (List Char)) :
    overlapOK (chunkLines maxT lines) = true := by
  cases lines with
  | nil => rw [chunkLines_nil]; rfl
  | cons l rs =>
    obtain ⟨c, cs, ext, heq, _, _, hov⟩ :=
      chunkLoop_spec maxT rs [l] (wordCount l) (by simp)
    rw [chunkLines_cons, heq]
    exact hov

lemma chunkLines_ne_nil (maxT : Nat) (lines : List (List Char))
    (h : lines ≠ []) : chunkLines maxT lines ≠ [] := by
  cases lines with
  | nil => exact absurd rfl h
  | cons l rs =>
    obtain ⟨c, cs, ext, heq, _, _, _⟩ :=
      chunkLoop_spec maxT rs [l] (wordCount l) (by simp)
    rw [chunkLines_cons, heq]
    simp

lemma chunkCode_ne_nil (content : String) (maxT : Nat) :
    chunkCode content maxT ≠ [] := by
  unfold chunkCode
  intro hmap
  rw [List.map_eq_nil_iff] at hmap
  exact chunkLines_ne_nil maxT (splitNl content.data)
    (splitNl_ne_nil content.data) hmap

/-! ## Tracker lemmas -/

lemma lookupA_setA_self {α : Type} (l : List (String × α)) (k : String) (v : α) :
    lookupA (setA l k v) k = some v := by
  induction l with
  | nil => simp [setA, lookupA]
  | cons hd tl ih =>
    obtain ⟨k0, v0⟩ := hd
    by_cases hk : k0 = k
    · simp [setA, hk, lookupA]
    · simp [setA, hk, lookupA, ih]

lemma applyJobUpdate_status (job : JobStatus) (s : String) (p : Int)
    (st : String) (now : Nat) : (applyJobUpdate job s p st now).status = st := by
  simp only [applyJobUpdate]
  split <;> split <;> rfl

lemma applyJobUpdate_progress (job : JobStatus) (s : String) (p : Int)
    (st : String) (now : Nat) : (applyJobUpdate job s p st now).progress = p := by
  simp only [applyJobUpdate]
  split <;> split <;> rfl

lemma applyJobUpdate_total (job : JobStatus) (s : String) (p : Int)
    (st : String) (now : Nat) : (applyJobUpdate job s p st now).total = job.total := by
  simp only [applyJobUpdate]
  split <;> split <;> rfl

lemma getJob_updateJob (t : JobTracker) (id s : String) (p : Int) (st : String)
    (now : Nat) (job : JobStatus) (h : lookupA t.jobs id = some job) :
    GetJob (UpdateJob t id s p st now) id =
      some (applyJobUpdate job s p st now) := by
  unfold UpdateJob
  rw [h]
  simp only [GetJob]
  exact lookupA_setA_self _ _ _

lemma updateJob_not_found (t : JobTracker) (id s : String) (p : Int)
    (st : String) (now : Nat) (h : lookupA t.jobs id = none) :
    UpdateJob t id s p st now = t := by
  unfold UpdateJob
  rw [h]

lemma updateJob_subs (t : JobTracker) (id s : String) (p : Int) (st : String)
    (now : Nat) (job : JobStatus) (chans : List Chan)
    (hj : lookupA t.jobs id = some job) (hs : lookupA t.subs id = some chans) :
    lookupA (UpdateJob t id s p st now).subs id =
      some (notifyAll chans (applyJobUpdate job s p st now)) := by
  unfold UpdateJob
  rw [hj]
  simp only [hs, notifyAll]
  exact lookupA_setA_self _ _ _

lemma sendBehavior_true (snap : JobStatus) (ch : Chan) :
    sendBehavior snap ch = true := by
  unfold sendBehavior trySend
  by_cases h : ch.buf.length < ch.cap
  · simp [h]
  · simp [h]

/-! ## Orchestrator trace lemmas -/

lemma updateCalls_append (a b : List Event) :
    updateCalls (a ++ b) = updateCalls a ++ updateCalls b := by
  unfold updateCalls
  exact List.filterMap_append _ _ _

lemma savedCalls_append (a b : List Event) :
    savedCalls (a ++ b) = savedCalls a ++ savedCalls b := by
  unfold savedCalls
  exact List.filterMap_append _ _ _

lemma updateCalls_strategyEvents (i : Nat) (name : String)
    (f : Nat → Except String AnalysisResult) :
    updateCalls (strategyEvents i name f) =
      [(name, (i : Int), "running"), (name, (i : Int) + 1, "running")] := by
  unfold strategyEvents
  cases tryAttempts f 0 2 <;> simp [updateCalls]

lemma updateCalls_loop (f : Nat → Nat → Except String AnalysisResult) :
    ∀ (ss : List String) (i : Nat),
    updateCalls ((List.enumFrom i ss).flatMap
        fun p => strategyEvents p.1 p.2 (f p.1)) = pairCalls i ss := by
  intro ss
  induction ss with
  | nil => intro i; simp [List.enumFrom, pairCalls, updateCalls]
  | cons s rest ih =>
    intro i
    simp only [List.enumFrom, List.flatMap_cons, updateCalls_append,
      updateCalls_strategyEvents, ih, pairCalls]
    rfl

lemma updates_shape (strategies : List String)
    (f : Nat → Nat → Except String AnalysisResult) :
    updateCalls (runAnalysisJobEvents strategies f) =
      pairCalls 0 strategies ++
        [("", (strategies.length : Int), "complete")] := by
  unfold runAnalysisJobEvents
  rw [updateCalls_append]
  rw [show strategies.enum = List.enumFrom 0 strategies from rfl]
  rw [updateCalls_loop]
  rfl

lemma pairCalls_allRunning : ∀ (ss : List String) (i : Nat),
    allRunning (pairCalls i ss) = true := by
  intro ss
  induction ss with
  | nil => intro i; rfl
  | cons s rest ih =>
    intro i
    simp only [pairCalls, allRunning, List.all_cons, Bool.and_eq_true]
    refine ⟨rfl, rfl, ?_⟩
    exact ih (i + 1)

/-! ## Claim theorems: job tracker -/

/-- C10: for a job id not present in the tracker's job map, UpdateJob is a
    no-op — the whole tracker state (jobs and all subscriber channels) is
    returned unchanged, so nothing is created, modified or notified. -/
theorem updateJob_unknown_id_noop (t : JobTracker) (id s : String) (p : Int)
    (st : String) (now : Nat) (h : GetJob t id = none) :
    UpdateJob t id s p st now = t :=
  updateJob_not_found t id s p st now h

/-- C10 witness at a concrete tracker. -/
theorem updateJob_unknown_id_noop_witness :
    GetJob emptyTracker "missing" = none ∧
    UpdateJob emptyTracker "missing" "security" 1 "running" 0 = emptyTracker :=
  ⟨rfl, updateJob_unknown_id_noop emptyTracker "missing" "security" 1 "running" 0 rfl⟩

/-- C1 counterexample: the tracker stores a job in the terminal state
    "complete", yet a subsequent UpdateJob call changes the stored job —
    UpdateJob has no terminal-state guard, so terminal states are not
    absorbing at the tracker level. -/
theorem updateJob_terminal_absorbing_cex :
    (GetJob trackerDone "j").map JobStatus.status = some "complete" ∧
    GetJob (UpdateJob trackerDone "j" "extra" 5 "running" 9) "j" ≠
      GetJob trackerDone "j" := by
  refine ⟨rfl, ?_⟩
  decide

/-- C1 (amended): UpdateJob applies the requested mutation to any stored
    job regardless of its current status, including terminal ones; the
    stored job nevertheless never changes after reaching a terminal state in
    an orchestrator-driven run, because the background loop's single
    terminal UpdateJob call is its last UpdateJob call. -/
theorem updateJob_applies_unconditionally_terminal_last :
    (∀ (t : JobTracker) (id s : String) (p : Int) (st : String) (now : Nat)
        (job : JobStatus), GetJob t id = some job →
        GetJob (UpdateJob t id s p st now) id =
          some (applyJobUpdate job s p st now)) ∧
    (∀ (strategies : List String)
        (f : Nat → Nat → Except String AnalysisResult),
        allRunning (updateCalls (runAnalysisJobEvents strategies f)).dropLast
          = true ∧
        (updateCalls (runAnalysisJobEvents strategies f)).getLast? =
          some ("", (strategies.length : Int), "complete")) := by
  constructor
  · intro t id s p st now job h
    exact getJob_updateJob t id s p st now job h
  · intro strategies f
    constructor
    · rw [updates_shape]
      rw [List.dropLast_concat]
      exact pairCalls_allRunning strategies 0
    · rw [updates_shape]
      exact List.getLast?_concat _

/-- C1 witness: the unconditional update applied to a terminal job, and the
    terminal-call-last shape at a concrete strategy list. -/
theorem updateJob_applies_unconditionally_terminal_last_witness :
    GetJob (UpdateJob trackerDone "j" "extra" 5 "running" 9) "j" =
      some (applyJobUpdate jobDone "extra" 5 "running" 9) ∧
    allRunning (updateCalls (runAnalysisJobEvents ["architecture"] fOk)).dropLast
      = true ∧
    (updateCalls (runAnalysisJobEvents ["architecture"] fOk)).getLast? =
      some ("", ((["architecture"] : List String).length : Int), "complete") :=
  ⟨updateJob_applies_unconditionally_terminal_last.1 trackerDone "j" "extra" 5
      "running" 9 jobDone rfl,
   updateJob_applies_unconditionally_terminal_last.2 ["architecture"] fOk⟩

/-- C9: UpdateJob with a terminal status updates the stored job to
    "complete" no matter what the subscriber channels hold, fans the
    snapshot out to every subscriber of that id with `trySend`, and each
    send either appends to a channel with room or drops the update on a
    full channel — a subscriber that never drains cannot prevent the job
    from completing. -/
theorem updateJob_nonblocking_send (t : JobTracker) (id s : String) (p : Int)
    (now : Nat) (job : JobStatus) (chans : List Chan)
    (hj : GetJob t id = some job) (hs : lookupA t.subs id = some chans) :
    jobSummary (UpdateJob t id s p "complete" now) id =
      some ("complete", p, job.total) ∧
    lookupA (UpdateJob t id s p "complete" now).subs id =
      some (notifyAll chans (applyJobUpdate job s p "complete" now)) ∧
    chans.all (sendBehavior (applyJobUpdate job s p "complete" now)) = true := by
  refine ⟨?_, updateJob_subs t id s p "complete" now job chans hj hs, ?_⟩
  · unfold jobSummary
    rw [getJob_updateJob t id s p "complete" now job hj]
    simp [applyJobUpdate_status, applyJobUpdate_progress, applyJobUpdate_total]
  · simp only [List.all_eq_true]
    intro ch _
    exact sendBehavior_true _ ch

/-- C9 witness: a full capacity-10 subscriber and an empty subscriber; the
    job still records "complete", the full channel drops the snapshot and
    the empty one receives it. -/
theorem updateJob_nonblocking_send_witness :
    jobSummary (UpdateJob trackerSlow "j" "" 5 "complete" 8) "j" =
      some ("complete", 5, jobRun.total) ∧
    lookupA (UpdateJob trackerSlow "j" "" 5 "complete" 8).subs "j" =
      some (notifyAll chansSlow (applyJobUpdate jobRun "" 5 "complete" 8)) ∧
    chansSlow.all (sendBehavior (applyJobUpdate jobRun "" 5 "complete" 8))
      = true :=
  updateJob_nonblocking_send trackerSlow "j" "" 5 8 jobRun chansSlow rfl rfl

/-! ## Orchestrator claim lemmas and theorems (C2, C3, C6) -/

lemma progressList_pairCalls : ∀ (ss : List String) (i : Nat),
    progressList (pairCalls i ss) = progSeq (i : Int) ss.length := by
  intro ss
  induction ss with
  | nil => intro i; rfl
  | cons s rest ih =>
    intro i
    have hc : ((i + 1 : Nat) : Int) = (i : Int) + 1 := by push_cast; ring
    have hrest := ih (i + 1)
    unfold progressList at hrest
    rw [hc] at hrest
    simp only [pairCalls, progressList, List.map_cons, List.length_cons, progSeq]
    rw [hrest]

lemma progSeq_chain : ∀ (n : Nat) (j : Int),
    List.Chain' (· ≤ ·) (j :: progSeq j n ++ [j + (n : Int)]) := by
  intro n
  induction n with
  | zero =>
    intro j
    simp only [progSeq, List.nil_append, Nat.cast_zero, add_zero]
    exact List.chain'_pair.mpr le_rfl
  | succ n ih =>
    intro j
    have hc : j + ((n + 1 : Nat) : Int) = (j + 1) + (n : Int) := by push_cast; ring
    rw [hc]
    simp only [progSeq, List.cons_append]
    rw [List.chain'_cons, List.chain'_cons]
    refine ⟨le_rfl, by omega, ?_⟩
    exact ih (j + 1)

lemma progSeq_le : ∀ (n : Nat) (j x : Int), x ∈ progSeq j n → x ≤ j + (n : Int) := by
  intro n
  induction n with
  | zero => intro j x hx; simp [progSeq] at hx
  | succ n ih =>
    intro j x hx
    have hc : j + ((n + 1 : Nat) : Int) = (j + 1) + (n : Int) := by push_cast; ring
    rw [hc]
    simp only [progSeq, List.mem_cons] at hx
    rcases hx with h | h | h
    · subst h; have : (0 : Int) ≤ (n : Int) := Int.natCast_nonneg n; omega
    · subst h; have : (0 : Int) ≤ (n : Int) := Int.natCast_nonneg n; omega
    · exact ih (j + 1) x h

lemma allLe_eq (us : List (String × Int × String)) (n : Int) :
    allLe us n = (progressList us).all (fun p => decide (p ≤ n)) := by
  induction us with
  | nil => rfl
  | cons u rest ih =>
    simp only [allLe, progressList, List.map_cons, List.all_cons] at ih ⊢
    rw [ih]

lemma terminalCount_pairCalls : ∀ (ss : List String) (i : Nat),
    terminalCount (pairCalls i ss) = 0 := by
  intro ss
  induction ss with
  | nil => intro i; rfl
  | cons s rest ih =>
    intro i
    simp only [pairCalls, terminalCount, List.filter]
    rw [show isTerminal "running" = false from rfl]
    exact ih (i + 1)

/-- C2: along the orchestrator's UpdateJob calls (starting from the created
    job's progress 0) the progress arguments are monotonically
    non-decreasing, never exceed the total (the number of strategies), and
    exactly one call carries a terminal status — whatever each strategy
    attempt returns. -/
theorem job_progress_monotone_bounded_single_terminal
    (strategies : List String)
    (f : Nat → Nat → Except String AnalysisResult) :
    List.Chain' (· ≤ ·)
      ((0 : Int) ::
        progressList (updateCalls (runAnalysisJobEvents strategies f))) ∧
    allLe (updateCalls (runAnalysisJobEvents strategies f))
      (strategies.length : Int) = true ∧
    terminalCount (updateCalls (runAnalysisJobEvents strategies f)) = 1 := by
  rw [updates_shape]
  refine ⟨?_, ?_, ?_⟩
  · rw [show progressList (pairCalls 0 strategies ++
          [("", (strategies.length : Int), "complete")])
        = progressList (pairCalls 0 strategies) ++ [(strategies.length : Int)]
        from List.map_append _ _ _]
    rw [progressList_pairCalls]
    have h := progSeq_chain strategies.length 0
    rw [zero_add] at h
    exact h
  · rw [allLe_eq]
    rw [show progressList (pairCalls 0 strategies ++
          [("", (strategies.length : Int), "complete")])
        = progressList (pairCalls 0 strategies) ++ [(strategies.length : Int)]
        from List.map_append _ _ _]
    rw [progressList_pairCalls, List.all_append]
    simp only [Bool.and_eq_true]
    refine ⟨?_, ?_⟩
    · rw [List.all_eq_true]
      intro x hx
      have := progSeq_le strategies.length 0 x hx
      rw [zero_add] at this
      exact decide_eq_true this
    · simp
  · unfold terminalCount
    rw [List.filter_append, List.length_append]
    have h0 : (List.filter (fun u => isTerminal u.2.2)
        (pairCalls 0 strategies)).length = 0 :=
      terminalCount_pairCalls strategies 0
    rw [h0]
    rfl

lemma tryAttempts_two_fail_then_ok (f : Nat → Except String AnalysisResult)
    (e0 e1 : String) (r : AnalysisResult) (h0 : f 0 = Except.error e0)
    (h1 : f 1 = Except.error e1) (h2 : f 2 = Except.ok r) :
    tryAttempts f 0 2 = Except.ok r := by
  show (match f 0 with
        | Except.ok r => Except.ok r
        | Except.error _ => tryAttempts f 1 1) = Except.ok r
  rw [h0]
  show (match f 1 with
        | Except.ok r => Except.ok r
        | Except.error _ => tryAttempts f 2 0) = Except.ok r
  rw [h1]
  exact h2

lemma tryAttempts_all_fail (f : Nat → Except String AnalysisResult)
    (e0 e1 e2 : String) (h0 : f 0 = Except.error e0)
    (h1 : f 1 = Except.error e1) (h2 : f 2 = Except.error e2) :
    tryAttempts f 0 2 = Except.error e2 := by
  show (match f 0 with
        | Except.ok r => Except.ok r
        | Except.error _ => tryAttempts f 1 1) = Except.error e2
  rw [h0]
  show (match f 1 with
        | Except.ok r => Except.ok r
        | Except.error _ => tryAttempts f 2 0) = Except.error e2
  rw [h1]
  exact h2

/-- C3 counterexample: one strategy whose attempts fail, fail, then
    succeed — before the success-driven advance UpdateJob was called with
    "running" for that strategy exactly once (with 2 such calls across the
    whole trace, the second being the advance itself), never 3 times. -/
theorem strategy_retry_three_running_cex :
    runningCount "security"
      ((runAnalysisJobEvents ["security"] fRetryAll).take 2) = 1 ∧
    runningCount "security" (runAnalysisJobEvents ["security"] fRetryAll) = 2 := by
  constructor
  · decide
  · decide

/-- C3 (amended): for a strategy that fails twice and succeeds on the third
    attempt, the loop emits exactly the pre-call, the save of the successful
    result, and the progress advance — so the final persisted result for the
    strategy is the successful one, and UpdateJob is called with "running"
    exactly once for that strategy before the success-driven advance
    (retries emit no extra UpdateJob calls). -/
theorem strategy_retry_single_running_update (i : Nat) (name : String)
    (f : Nat → Except String AnalysisResult) (e0 e1 : String)
    (r : AnalysisResult) (h0 : f 0 = Except.error e0)
    (h1 : f 1 = Except.error e1) (h2 : f 2 = Except.ok r) :
    strategyEvents i name f =
      [Event.update name (i : Int) "running",
       Event.save name r.summary r.score,
       Event.update name ((i : Int) + 1) "running"] ∧
    runningCount name (strategyEvents i name f).dropLast = 1 ∧
    savedCalls (strategyEvents i name f) = [(name, r.score)] := by
  have he : strategyEvents i name f =
      [Event.update name (i : Int) "running",
       Event.save name r.summary r.score,
       Event.update name ((i : Int) + 1) "running"] := by
    unfold strategyEvents
    rw [tryAttempts_two_fail_then_ok f e0 e1 r h0 h1 h2]
  refine ⟨he, ?_, ?_⟩
  · rw [he]
    simp [runningCount, List.dropLast, List.filter]
  · rw [he]
    simp [savedCalls]

/-- C3 witness: the concrete fail-fail-succeed oracle. -/
theorem strategy_retry_single_running_update_witness :
    strategyEvents 0 "security" fRetry =
      [Event.update "security" 0 "running",
       Event.save "security" "all good" 8,
       Event.update "security" 1 "running"] ∧
    runningCount "security" (strategyEvents 0 "security" fRetry).dropLast = 1 ∧
    savedCalls (strategyEvents 0 "security" fRetry) = [("security", 8)] :=
  strategy_retry_single_running_update 0 "security" fRetry "timeout" "timeout"
    { summary := "all good", score := 8 } rfl rfl rfl

lemma savedCalls_strategyEvents_fail (i : Nat) (name : String)
    (f : Nat → Except String AnalysisResult) (e : String)
    (ht : tryAttempts f 0 2 = Except.error e) :
    savedCalls (strategyEvents i name f) = [(name, 0)] := by
  unfold strategyEvents
  rw [ht]
  simp [savedCalls]

lemma savedCalls_loop_fail (f : Nat → Nat → Except String AnalysisResult)
    (h : ∀ i k, ∃ e, f i k = Except.error e) :
    ∀ (ss : List String) (i : Nat),
    savedCalls ((List.enumFrom i ss).flatMap
        fun p => strategyEvents p.1 p.2 (f p.1)) =
      ss.map (fun s => (s, (0 : Int))) := by
  intro ss
  induction ss with
  | nil => intro i; rfl
  | cons s rest ih =>
    intro i
    obtain ⟨e0, h0⟩ := h i 0
    obtain ⟨e1, h1⟩ := h i 1
    obtain ⟨e2, h2⟩ := h i 2
    have ht := tryAttempts_all_fail (f i) e0 e1 e2 h0 h1 h2
    simp only [List.enumFrom, List.flatMap_cons, savedCalls_append,
      savedCalls_strategyEvents_fail i s (f i) e2 ht, List.map_cons]
    rw [ih (i + 1)]
    rfl

lemma applyUpdates_append (jobID : String) (now : Nat) :
    ∀ (us vs : List (String × Int × String)) (t : JobTracker),
    applyUpdates t jobID now (us ++ vs) =
      applyUpdates (applyUpdates t jobID now us) jobID now vs := by
  intro us
  induction us with
  | nil => intro vs t; rfl
  | cons u rest ih =>
    intro vs t
    obtain ⟨s, p, st⟩ := u
    simp only [List.cons_append, applyUpdates]
    exact ih vs (UpdateJob t jobID s p st now)

lemma getJob_applyUpdates (jobID : String) (now : Nat) :
    ∀ (us : List (String × Int × String)) (t : JobTracker) (job : JobStatus),
    GetJob t jobID = some job →
    ∃ j2, GetJob (applyUpdates t jobID now us) jobID = some j2 ∧
      j2.total = job.total := by
  intro us
  induction us with
  | nil => intro t job h; exact ⟨job, h, rfl⟩
  | cons u rest ih =>
    intro t job h
    obtain ⟨s, p, st⟩ := u
    have h2 := getJob_updateJob t jobID s p st now job h
    obtain ⟨j2, hj2, htot⟩ := ih (UpdateJob t jobID s p st now) _ h2
    refine ⟨j2, hj2, ?_⟩
    rw [htot, applyJobUpdate_total]

lemma getJob_createJob (t0 : JobTracker) (jobID repoID : String) (total : Int)
    (now : Nat) :
    ∃ j, GetJob (CreateJob t0 jobID repoID total now) jobID = some j ∧
      j.total = total ∧ j.progress = 0 ∧ j.status = "running" := by
  simp only [CreateJob, GetJob]
  exact ⟨_, lookupA_setA_self _ _ _, rfl, rfl, rfl⟩

/-- C6: when every attempt of every strategy fails, a synthetic score-0
    failure report is saved for every strategy, the UpdateJob calls still
    advance progress by one per strategy before the final terminal call,
    and replaying the calls against the created job leaves it "complete"
    with progress equal to its total. -/
theorem all_strategies_fail_job_completes (strategies : List String)
    (f : Nat → Nat → Except String AnalysisResult) (t0 : JobTracker)
    (jobID repoID : String) (now now2 : Nat)
    (hfail : ∀ i k, ∃ e, f i k = Except.error e) :
    savedCalls (runAnalysisJobEvents strategies f) =
      strategies.map (fun s => (s, (0 : Int))) ∧
    updateCalls (runAnalysisJobEvents strategies f) =
      pairCalls 0 strategies ++
        [("", (strategies.length : Int), "complete")] ∧
    jobSummary
      (applyUpdates (CreateJob t0 jobID repoID (strategies.length : Int) now)
        jobID now2 (updateCalls (runAnalysisJobEvents strategies f))) jobID =
      some ("complete", (strategies.length : Int), (strategies.length : Int)) := by
  refine ⟨?_, updates_shape strategies f, ?_⟩
  · unfold runAnalysisJobEvents
    rw [savedCalls_append]
    rw [show strategies.enum = List.enumFrom 0 strategies from rfl]
    rw [savedCalls_loop_fail f hfail strategies 0]
    simp [savedCalls]
  · rw [updates_shape, applyUpdates_append]
    obtain ⟨j0, hj0, htot0, _, _⟩ :=
      getJob_createJob t0 jobID repoID (strategies.length : Int) now
    obtain ⟨j2, hj2, htot2⟩ :=
      getJob_applyUpdates jobID now2 (pairCalls 0 strategies) _ j0 hj0
    have hfinal :
        applyUpdates
          (applyUpdates (CreateJob t0 jobID repoID (strategies.length : Int) now)
            jobID now2 (pairCalls 0 strategies)) jobID now2
          [("", (strategies.length : Int), "complete")] =
        UpdateJob
          (applyUpdates (CreateJob t0 jobID repoID (strategies.length : Int) now)
            jobID now2 (pairCalls 0 strategies)) jobID ""
          (strategies.length : Int) "complete" now2 := rfl
    rw [hfinal]
    unfold jobSummary
    rw [getJob_updateJob _ jobID "" (strategies.length : Int) "complete" now2
      j2 hj2]
    simp only [Option.map_some']
    rw [applyJobUpdate_status, applyJobUpdate_progress, applyJobUpdate_total]
    rw [htot2, htot0]

/-- C6 witness: five strategies, every attempt failing. -/
theorem all_strategies_fail_job_completes_witness :
    savedCalls (runAnalysisJobEvents strat5 fFail) =
      [("architecture", 0), ("code_quality", 0), ("security", 0),
       ("performance", 0), ("documentation", 0)] ∧
    updateCalls (runAnalysisJobEvents strat5 fFail) =
      pairCalls 0 strat5 ++ [("", 5, "complete")] ∧
    jobSummary
      (applyUpdates (CreateJob emptyTracker "job1" "repo1" 5 0) "job1" 1
        (updateCalls (runAnalysisJobEvents strat5 fFail))) "job1" =
      some ("complete", 5, 5) :=
  all_strategies_fail_job_completes strat5 fFail emptyTracker "job1" "repo1"
    0 1 (fun _ _ => ⟨"provider down", rfl⟩)

/-! ## Claim theorems: chunker -/

/-- C4 counterexample: the empty file content yields one chunk (the empty
    string), not zero chunks — Go's `strings.Split("", "\n")` is `[""]`, so
    chunkCode never returns an empty list. -/
theorem chunker_empty_input_cex : chunkCode "" 512 = [""] := by decide

/-- C4 (amended): for every content the Chunker emits at least one chunk —
    including the empty content, which yields exactly one chunk holding the
    empty string; chunks appear in file order (dropping each chunk's overlap
    lines and concatenating restores the line sequence of the input); and
    the result is determined by the content and the maxUnits limit alone. -/
theorem chunker_nonempty_ordered_deterministic :
    (∀ (content : String) (maxT : Nat), chunkCode content maxT ≠ []) ∧
    (∀ maxT : Nat, chunkCode "" maxT = [""]) ∧
    (∀ (c₁ c₂ : String) (m₁ m₂ : Nat), c₁ = c₂ → m₁ = m₂ →
        chunkCode c₁ m₁ = chunkCode c₂ m₂) ∧
    (∀ (content : String) (maxT : Nat),
        reconstruct (chunkLines maxT (splitNl content.data)) =
          splitNl content.data) := by
  refine ⟨chunkCode_ne_nil, ?_, ?_, ?_⟩
  · intro maxT
    have h : chunkLines maxT (splitNl ("".data)) = [[[]]] := by
      simp [chunkLines, chunkLoop, splitNl, wordCount, countFields]
    unfold chunkCode
    rw [h]
    decide
  · intro c₁ c₂ m₁ m₂ hc hm
    rw [hc, hm]
  · intro content maxT
    exact reconstruct_chunkLines maxT (splitNl content.data)

/-- C4 witness at concrete inputs. -/
theorem chunker_nonempty_ordered_deterministic_witness :
    chunkCode "hello world" 2 ≠ [] ∧
    chunkCode "" 7 = [""] ∧
    chunkCode "a b" 3 = chunkCode "a b" 3 ∧
    reconstruct (chunkLines 1 (splitNl ("x\ny").data)) =
      splitNl ("x\ny").data :=
  ⟨chunker_nonempty_ordered_deterministic.1 "hello world" 2,
   chunker_nonempty_ordered_deterministic.2.1 7,
   chunker_nonempty_ordered_deterministic.2.2.1 "a b" "a b" 3 3 rfl rfl,
   chunker_nonempty_ordered_deterministic.2.2.2 "x\ny" 1⟩

/-- C8: for every chunking input (any line list, any token limit) every
    chunk after the first begins with the last `min 3 prev.length` lines of
    its predecessor, and concatenating the chunks after dropping each
    chunk's leading overlap lines reconstructs the original line sequence
    (so line order is preserved). -/
theorem chunker_overlap_reconstruct (maxT : Nat) (lines : List (List Char)) :
    reconstruct (chunkLines maxT lines) = lines ∧
    overlapOK (chunkLines maxT lines) = true :=
  ⟨reconstruct_chunkLines maxT lines, overlapOK_chunkLines maxT lines⟩

/-! ## RAG service lemmas and claim theorems (C5, C7) -/

lemma queryStream_step (env : AIEnv) (repoID question : String)
    (v : List Int) (chunks : List SimilarChunk)
    (h1 : env.embed question = Except.ok v)
    (h2 : env.searchSimilar repoID v 10 = Except.ok chunks) :
    QueryStream env repoID question = chatStreamStep env question chunks := by
  unfold QueryStream chatStreamStep
  simp only [h1, h2]

/-- C5 counterexample: with zero chunks found, Query returns the fixed
    answer with no error, while QueryStream (same embed and search results)
    invokes the streaming chat call and here surfaces its failure — it does
    not reproduce the zero-chunk fixed answer. -/
theorem queryStream_zero_chunks_cex :
    Query envZero "r" "q" = Except.ok (noRelevantAnswer, []) ∧
    QueryStream envZero "r" "q" =
      Except.error ("chat stream: " ++ "stream down") := by
  constructor
  · rfl
  · rfl

/-- C5 (amended): when the similarity search returns zero chunks, Query
    returns the fixed "no relevant code found" answer with an empty source
    list and no error; QueryStream performs the same embed and search steps
    but has no zero-chunk check — it proceeds to the streaming chat call
    with an empty context instead of returning the fixed answer. -/
theorem query_zero_chunks_fixed_answer (env : AIEnv) (repoID question : String)
    (v : List Int) (h1 : env.embed question = Except.ok v)
    (h2 : env.searchSimilar repoID v 10 = Except.ok []) :
    Query env repoID question = Except.ok (noRelevantAnswer, []) ∧
    QueryStream env repoID question = chatStreamStep env question [] := by
  constructor
  · unfold Query
    simp only [h1, h2]
    rfl
  · exact queryStream_step env repoID question v [] h1 h2

/-- C5 witness at a concrete environment with an empty store. -/
theorem query_zero_chunks_fixed_answer_witness :
    Query envZero "r" "q" = Except.ok (noRelevantAnswer, []) ∧
    QueryStream envZero "r" "q" = chatStreamStep envZero "q" [] :=
  query_zero_chunks_fixed_answer envZero "r" "q" [1] rfl rfl

lemma indexFile_of_ok (env : AIEnv) (repoID snapshotID p c : String)
    (vectors : List (List Int))
    (he : env.embedBatch (chunkCode c 512) = Except.ok vectors)
    (hs : env.storeBatch
        (fileEmbeddings repoID snapshotID p (chunkCode c 512) vectors) =
      Except.ok ()) :
    indexFile env repoID snapshotID p c =
      fileEmbeddings repoID snapshotID p (chunkCode c 512) vectors := by
  unfold indexFile
  rw [if_neg (chunkCode_ne_nil c 512)]
  simp only [he, hs]

/-- C7: IndexChunks never returns an error, and every file whose batched
    embedding call and store call succeed has all of its chunk embeddings
    present in the vector store — one file's embedding failure cannot stop
    the others from being indexed, and nothing propagates to the caller. -/
theorem indexChunks_best_effort (env : AIEnv) (repoID snapshotID : String)
    (files : List (String × String)) (p c : String) (vectors : List (List Int))
    (hmem : (p, c) ∈ files)
    (he : env.embedBatch (chunkCode c 512) = Except.ok vectors)
    (hs : env.storeBatch
        (fileEmbeddings repoID snapshotID p (chunkCode c 512) vectors) =
      Except.ok ()) :
    (IndexChunks env repoID snapshotID files).2 = Except.ok () ∧
    containsAll (IndexChunks env repoID snapshotID files).1
      (fileEmbeddings repoID snapshotID p (chunkCode c 512) vectors) = true := by
  refine ⟨rfl, ?_⟩
  unfold containsAll
  rw [List.all_eq_true]
  intro e hemem
  have hstored : e ∈ (IndexChunks env repoID snapshotID files).1 := by
    unfold IndexChunks
    refine List.mem_flatMap.mpr ⟨(p, c), hmem, ?_⟩
    rw [indexFile_of_ok env repoID snapshotID p c vectors he hs]
    exact hemem
  simpa using hstored

/-- C7 witness: three files where B's embedding call fails — file A is still
    fully stored and no error is returned. -/
theorem indexChunks_best_effort_witness :
    (IndexChunks envIdx "repo" "snap" filesIdx).2 = Except.ok () ∧
    containsAll (IndexChunks envIdx "repo" "snap" filesIdx).1
      (fileEmbeddings "repo" "snap" "a.go" (chunkCode "alpha" 512) [[1]])
      = true :=
  indexChunks_best_effort envIdx "repo" "snap" filesIdx "a.go" "alpha" [[1]]
    (by decide) rfl rfl

end GitAnalyzer
